import Mathlib

/-
Verification of the recurring-transaction versioning and materialization
engine of the TempoBudget backend (backend/app/routes/transactions.py).

The engine is embedded shallowly: the SQLite tables become Lean lists of
records, the route handlers become pure state-passing functions, ISO date
strings (compared lexicographically in the source) become a Date record
compared through a numeric key that realizes the same ordering on valid
dates, and SQL three-valued equality on the nullable category column is
modelled explicitly (NULL = x is never true).  Monetary amounts are only
ever compared for equality by the engine, so they are carried as Int.
-/

namespace TempoBudget

/-- Calendar date, standing for the zero-padded ISO string YYYY-MM-DD used
by the source.  Comparisons in the source are lexicographic on the string;
on valid dates that order coincides with the order of key.  -/
structure Date where
  year : Nat
  month : Nat
  day : Nat
  deriving Repr, DecidableEq

/-- Numeric encoding of a date realizing the lexicographic ISO order. -/
def Date.key (d : Date) : Nat := d.year * 10000 + d.month * 100 + d.day

/-- Gregorian leap-year test, as in Python calendar / datetime. -/
def isLeap (y : Nat) : Bool := (y % 4 == 0 && y % 100 != 0) || y % 400 == 0

/-- Number of days of month m of year y, as Python calendar.monthrange. -/
def daysInMonth (y m : Nat) : Nat :=
  if m = 2 then (if isLeap y then 29 else 28)
  else if m = 4 ∨ m = 6 ∨ m = 9 ∨ m = 11 then 30
  else 31

/-- Days in all years before year y (proleptic Gregorian), as in the
implementation behind Python datetime.toordinal. -/
def daysBeforeYear (y : Nat) : Nat :=
  365 * (y - 1) + (y - 1) / 4 - (y - 1) / 100 + (y - 1) / 400

/-- Days in the months of year y strictly before month m. -/
def daysBeforeMonth (y m : Nat) : Nat :=
  ((List.range' 1 (m - 1)).map (daysInMonth y)).sum

/-- Ordinal of a date, with 0001-01-01 having ordinal 1, as Python
datetime.toordinal. -/
def toordinal (y m d : Nat) : Nat := daysBeforeYear y + daysBeforeMonth y m + d

/-- Day of week with Monday = 0 .. Sunday = 6, as Python datetime.weekday. -/
def weekday (y m d : Nat) : Nat := (toordinal y m d + 6) % 7

/-- Python `x or dflt` on a nullable integer field: None and 0 both fall
back to the default. -/
def pyOr (o : Option Nat) (dflt : Nat) : Nat :=
  match o with
  | none => dflt
  | some 0 => dflt
  | some (n + 1) => n + 1

/-- Row of the recurring_transactions table (the canonical template). -/
structure Template where
  id : String
  budget_id : String
  category_id : Option String
  title : String
  amount : Int
  transaction_type : String
  frequency : String
  day : Option Nat
  active : Bool
  created_at : Date
  deriving Repr, DecidableEq

/-- Row of the recurring_transaction_versions table. -/
structure Version where
  id : String
  recurring_transaction_id : String
  title : String
  amount : Int
  category_id : Option String
  frequency : String
  day : Option Nat
  effective_from : Date
  effective_until : Option Date
  created_at : Date
  change_reason : Option String
  deriving Repr, DecidableEq

/-- Row of the transactions table. -/
structure Txn where
  id : String
  budget_id : String
  category_id : Option String
  title : String
  amount : Int
  transaction_type : String
  date : Date
  comment : String
  is_recurring : Bool
  paid_by_user_id : Option String
  created_at : Date
  deriving Repr, DecidableEq

/-- The persistent store: the three tables the engine touches. -/
structure Store where
  templates : List Template
  versions : List Version
  transactions : List Txn
  deriving Repr, DecidableEq

/-- Error taxonomy of the route handlers (HTTP 404 and HTTP 400). -/
inductive Err where
  | notFound
  | invalidState
  deriving Repr, DecidableEq

/-- SQL equality on the nullable category column: `col = :param` is true
only when both sides are non-NULL and equal; any comparison with NULL is
not true. -/
def sqlEqOpt (a b : Option String) : Bool :=
  match a, b with
  | some x, some y => x == y
  | _, _ => false

/-- Due dates of a template in the month of `today`, up to and including
`today`: the dates_to_create computation of process_recurring_transactions.
-/
def datesToCreate (rec : Template) (today : Date) : List Date :=
  if rec.frequency == "monthly" then
    let targetDay := min (pyOr rec.day 1) (daysInMonth today.year today.month)
    if targetDay ≤ today.day then [⟨today.year, today.month, targetDay⟩] else []
  else if rec.frequency == "weekly" then
    let recDayOfWeek := pyOr rec.day 0
    ((List.range' 1 today.day).filter
        (fun d => weekday today.year today.month d == recDayOfWeek)).map
      (fun d => ⟨today.year, today.month, d⟩)
  else if rec.frequency == "yearly" then
    let targetDay := min (pyOr rec.day 1) (daysInMonth today.year today.month)
    if rec.created_at.month == today.month && targetDay ≤ today.day then
      [⟨today.year, today.month, targetDay⟩]
    else []
  else []

/-- Earliest pending version lookup: the query with
effective_from > today AND effective_until IS NULL
ORDER BY effective_from ASC LIMIT 1.  Among equal effective_from values the
first row in table order is kept. -/
def pickEarliest : List Version → Option Version
  | [] => none
  | v :: vs =>
    match pickEarliest vs with
    | none => some v
    | some b => if b.effective_from.key < v.effective_from.key then some b else some v

/-- Candidate filter for the pending-version query. -/
def pendingFilter (rid : String) (today : Date) (v : Version) : Bool :=
  v.recurring_transaction_id == rid && decide (today.key < v.effective_from.key)
    && v.effective_until.isNone

/-- fetch_pending: the pending future version of a template, if any. -/
def fetch_pending (vs : List Version) (rid : String) (today : Date) : Option Version :=
  pickEarliest (vs.filter (pendingFilter rid today))

/-- Stable insertion into a list sorted by descending effective_from. -/
def insertDesc (v : Version) : List Version → List Version
  | [] => [v]
  | w :: ws =>
    if w.effective_from.key ≤ v.effective_from.key then v :: w :: ws
    else w :: insertDesc v ws

/-- Stable sort by descending effective_from (ORDER BY effective_from DESC). -/
def sortByFromDesc : List Version → List Version
  | [] => []
  | v :: vs => insertDesc v (sortByFromDesc vs)

/-- get_recurring_versions: version history of a template, ordered by
effective_from descending (the route first 404s when the template is
unknown; the history itself is this list). -/
def get_recurring_versions (s : Store) (rid : String) : List Version :=
  sortByFromDesc (s.versions.filter (fun v => v.recurring_transaction_id == rid))

/-- Sparse update payload of PUT /recurring/: a None field keeps the
current value.  effective_date = none defaults to today. -/
structure UpdatePayload where
  title : Option String
  amount : Option Int
  category_id : Option String
  frequency : Option String
  day : Option Nat
  effective_date : Option Date
  change_reason : Option String
  deriving Repr, DecidableEq

/-- Close predicate of the UPDATE statement that closes the currently open
version: effective_until IS NULL AND effective_from <= today, scoped to the
template. -/
def closePred (rid : String) (today : Date) (v : Version) : Bool :=
  v.recurring_transaction_id == rid && v.effective_until.isNone
    && decide (v.effective_from.key ≤ today.key)

/-- update_recurring_transaction (PUT /recurring/): merge the payload over
the current template values; when the effective date is today or earlier,
close the open version, insert the new version and overwrite the canonical
template; when it is in the future, only insert the new version.  Returns
the new store and the pending version reported to the caller.  `vid` stands
for the fresh uuid4 of the inserted version row. -/
def update_recurring_transaction (s : Store) (rid : String) (p : UpdatePayload)
    (today : Date) (vid : String) : Except Err (Store × Option Version) :=
  match s.templates.find? (fun t => t.id == rid) with
  | none => Except.error Err.notFound
  | some row =>
    let eff := p.effective_date.getD today
    let newTitle := p.title.getD row.title
    let newAmount := p.amount.getD row.amount
    let newCat := p.category_id.or row.category_id
    let newFreq := p.frequency.getD row.frequency
    let newDay := p.day.or row.day
    let newV : Version :=
      ⟨vid, rid, newTitle, newAmount, newCat, newFreq, newDay, eff, none, today,
        p.change_reason⟩
    if eff.key ≤ today.key then
      let s' : Store :=
        { s with
          versions :=
            (s.versions.map (fun v =>
              if closePred rid today v then { v with effective_until := some today }
              else v)) ++ [newV]
          templates :=
            s.templates.map (fun t =>
              if t.id == rid then
                { t with title := newTitle, amount := newAmount,
                         category_id := newCat, frequency := newFreq, day := newDay }
              else t) }
      Except.ok (s', fetch_pending s'.versions rid today)
    else
      let s' : Store := { s with versions := s.versions ++ [newV] }
      Except.ok (s', fetch_pending s'.versions rid today)

/-- delete_recurring_version (DELETE /recurring/versions/): cancel a
scheduled future version; 404 when the id is unknown, 400 when the version
is already past or current, otherwise delete the row. -/
def delete_recurring_version (s : Store) (vid : String) (today : Date) :
    Except Err Store :=
  match s.versions.find? (fun v => v.id == vid) with
  | none => Except.error Err.notFound
  | some row =>
    if row.effective_from.key ≤ today.key then Except.error Err.invalidState
    else Except.ok { s with versions := s.versions.filter (fun v => !(v.id == vid)) }

/-- Creation payload of POST /budgets/.../recurring. -/
structure CreatePayload where
  category_id : Option String
  title : String
  amount : Int
  transaction_type : String
  day : Option Nat
  frequency : String
  deriving Repr, DecidableEq

/-- create_recurring_transaction: insert the template row with active = 1.
`rid` stands for the fresh uuid4 of the row, `now` for the creation
timestamp. -/
def create_recurring_transaction (s : Store) (b : String) (p : CreatePayload)
    (rid : String) (now : Date) : Store × Template :=
  let t : Template :=
    ⟨rid, b, p.category_id, p.title, p.amount, p.transaction_type, p.frequency,
      p.day, true, now⟩
  ({ s with templates := s.templates ++ [t] }, t)

/-- delete_recurring_transaction (DELETE /recurring/): a bare DELETE by id
with no existence check, always answering 204. -/
def delete_recurring_transaction (s : Store) (rid : String) : Except Err Store :=
  Except.ok { s with templates := s.templates.filter (fun t => !(t.id == rid)) }

/-- Dedup existence check of the materialization engine: the SELECT over
transactions matching the tuple (budget, category, title, amount, date,
is_recurring = 1), with SQL NULL semantics on category. -/
def tupleMatches (b : String) (c : Option String) (t : String) (a : Int) (d : Date)
    (x : Txn) : Bool :=
  x.budget_id == b && sqlEqOpt x.category_id c && x.title == t && x.amount == a
    && x.date == d && x.is_recurring

/-- Transaction row inserted by the materialization engine for template
`rec` on date `d`; `k` numbers the fresh uuid4. -/
def mkTxn (k : Nat) (b : String) (rec : Template) (d : Date) (today : Date) : Txn :=
  ⟨Nat.repr k, b, rec.category_id, rec.title, rec.amount, rec.transaction_type, d,
    "Auto-generated from recurring: " ++ rec.title, true, none, today⟩

/-- Inner loop of process_recurring_transactions over the due dates of one
template: check the dedup tuple, insert when absent.  The accumulator
carries the transactions table, the list of created transactions and the
fresh-id counter. -/
def processDates (b : String) (rec : Template) (today : Date) :
    List Date → List Txn × List Txn × Nat → List Txn × List Txn × Nat
  | [], acc => acc
  | d :: ds, (txns, created, k) =>
    if txns.any (tupleMatches b rec.category_id rec.title rec.amount d) then
      processDates b rec today ds (txns, created, k)
    else
      let nt := mkTxn k b rec d today
      processDates b rec today ds (txns ++ [nt], created ++ [nt], k + 1)

/-- Outer loop of process_recurring_transactions over the active templates
of the budget. -/
def processRecs (b : String) (today : Date) :
    List Template → List Txn × List Txn × Nat → List Txn × List Txn × Nat
  | [], acc => acc
  | r :: rs, acc => processRecs b today rs (processDates b r today (datesToCreate r today) acc)

/-- process_recurring_transactions (POST /budgets/.../recurring/process):
materialize the active templates of a budget for the current month,
returning the updated store and the created transactions. -/
def process_recurring_transactions (s : Store) (b : String) (today : Date)
    (k : Nat) : Store × List Txn :=
  let recs := s.templates.filter (fun t => t.budget_id == b && t.active)
  let out := processRecs b today recs (s.transactions, [], k)
  ({ s with transactions := out.1 }, out.2.1)

/-- Version row built by update_recurring_transaction: the payload merged
over the current template values. -/
def mergedVersion (p : UpdatePayload) (row : Template) (rid vid : String)
    (today : Date) : Version :=
  ⟨vid, rid, p.title.getD row.title, p.amount.getD row.amount,
    p.category_id.or row.category_id, p.frequency.getD row.frequency,
    p.day.or row.day, p.effective_date.getD today, none, today, p.change_reason⟩

/-- Row transformer of the close-the-open-version UPDATE statement. -/
def closeFun (rid : String) (today : Date) (v : Version) : Version :=
  if closePred rid today v then { v with effective_until := some today } else v

/-- Row transformer of the overwrite-the-canonical-template UPDATE. -/
def updFun (rid : String) (p : UpdatePayload) (row : Template) (t : Template) :
    Template :=
  if t.id == rid then
    { t with title := p.title.getD row.title, amount := p.amount.getD row.amount,
             category_id := p.category_id.or row.category_id,
             frequency := p.frequency.getD row.frequency, day := p.day.or row.day }
  else t

/-- Store produced by the immediate branch of update_recurring_transaction. -/
def immediateStore (s : Store) (rid : String) (p : UpdatePayload) (today : Date)
    (vid : String) (row : Template) : Store :=
  { s with
    versions := (s.versions.map (closeFun rid today)) ++ [mergedVersion p row rid vid today],
    templates := s.templates.map (updFun rid p row) }

/-- Version rows of one template, in table order. -/
def versionsFor (s : Store) (rid : String) : List Version :=
  s.versions.filter (fun v => v.recurring_transaction_id == rid)

/-- State reached by a PUT /recurring/ call: the new store on success, the
unchanged store when the handler raises. -/
def applyUpdate (s : Store) (rid : String) (p : UpdatePayload) (today : Date)
    (vid : String) : Store :=
  match update_recurring_transaction s rid p today vid with
  | Except.ok (s2, _) => s2
  | Except.error _ => s

/-- State reached by a DELETE /recurring/versions/ call: the new store on
success, the unchanged store when the handler raises. -/
def applyCancel (s : Store) (vid : String) (today : Date) : Store :=
  match delete_recurring_version s vid today with
  | Except.ok s2 => s2
  | Except.error _ => s

/-- Version-store operations available to a caller at a fixed day. -/
inductive Op where
  | submit (rid : String) (p : UpdatePayload) (vid : String)
  | cancel (vid : String)

/-- Apply one operation to the store. -/
def applyOp (today : Date) (s : Store) : Op → Store
  | Op.submit rid p vid => applyUpdate s rid p today vid
  | Op.cancel vid => applyCancel s vid today

/-- Run a sequence of operations against the store. -/
def runOps (today : Date) : List Op → Store → Store
  | [], s => s
  | op :: ops, s => runOps today ops (applyOp today s op)

/-- Number of versions of the template that are open and current at `today`
(effective_until = null and effective_from <= today). -/
def countOpenCurrent (vs : List Version) (rid : String) (today : Date) : Nat :=
  (vs.filter (closePred rid today)).length

/-- C5: Monthly due-date rule: with frequency = monthly the due-date set is
the singleton on day min(template.day or 1, last_day_of(year, month)) when
that target day is at most the day-of-month of today, and empty otherwise;
the clamp never rolls into the next month, day 0 or absent defaults to 1,
and at most one date is produced. -/
theorem monthly_due_dates (rec : Template) (today : Date)
    (hf : rec.frequency = "monthly") :
    (∀ e, e ∈ datesToCreate rec today ↔
      (e = ⟨today.year, today.month,
            min (pyOr rec.day 1) (daysInMonth today.year today.month)⟩ ∧
        min (pyOr rec.day 1) (daysInMonth today.year today.month) ≤ today.day)) ∧
    (datesToCreate rec today).length ≤ 1 := by
  constructor
  · intro e
    simp only [datesToCreate, hf]
    by_cases h : min (pyOr rec.day 1) (daysInMonth today.year today.month) ≤ today.day <;>
      simp [h]
  · simp only [datesToCreate, hf]
    by_cases h : min (pyOr rec.day 1) (daysInMonth today.year today.month) ≤ today.day <;>
      simp [h]

/-- C5 witness: a monthly template with day = 31, with today the 30th of
April 2024 (a 30-day month), is due exactly on April 30. -/
theorem monthly_due_dates_witness :
    let t0 : Template :=
      ⟨"t1", "b1", some "c1", "Rent", 1000, "expense", "monthly", some 31, true,
        ⟨2024, 1, 1⟩⟩
    let today : Date := ⟨2024, 4, 30⟩
    (∀ e, e ∈ datesToCreate t0 today ↔
      (e = ⟨today.year, today.month,
            min (pyOr t0.day 1) (daysInMonth today.year today.month)⟩ ∧
        min (pyOr t0.day 1) (daysInMonth today.year today.month) ≤ today.day)) ∧
    (datesToCreate t0 today).length ≤ 1 :=
  monthly_due_dates _ _ rfl

/-- C6: Weekly due-date rule: with frequency = weekly the due-date set is
exactly the set of dates of the current month whose day d satisfies
1 <= d <= today's day-of-month and whose weekday (Monday = 0) equals
template.day (defaulting to Monday when 0 or absent), in ascending order. -/
theorem weekly_due_dates (rec : Template) (today : Date)
    (hf : rec.frequency = "weekly") :
    (∀ e, e ∈ datesToCreate rec today ↔
      (e.year = today.year ∧ e.month = today.month ∧ 1 ≤ e.day ∧ e.day ≤ today.day ∧
        weekday today.year today.month e.day = pyOr rec.day 0)) ∧
    (datesToCreate rec today).Sorted (fun a b => a.day < b.day) := by
  constructor
  · intro e
    obtain ⟨ey, em, ed⟩ := e
    simp only [datesToCreate, hf]
    simp [List.mem_filter, List.mem_range'_1, Date.mk.injEq]
    constructor
    · rintro ⟨a, ⟨⟨h1, h2⟩, hw⟩, hy, hm, hd⟩
      subst hy; subst hm; subst hd
      exact ⟨rfl, rfl, h1, by omega, hw⟩
    · rintro ⟨hy, hm, h1, h2, hw⟩
      exact ⟨ed, ⟨⟨h1, by omega⟩, hw⟩, hy.symm, hm.symm, rfl⟩
  · have h : datesToCreate rec today =
        ((List.range' 1 today.day).filter
            (fun d => weekday today.year today.month d == pyOr rec.day 0)).map
          (fun d => ⟨today.year, today.month, d⟩) := by
      simp [datesToCreate, hf]
    rw [h, List.Sorted, List.pairwise_map]
    exact ((List.pairwise_lt_range' 1 today.day).sublist (List.filter_sublist _))

/-- C6 witness: a weekly template with day = 4 (Friday), with today
November 22, 2024, is due exactly on the Fridays 1, 8, 15 and 22. -/
theorem weekly_due_dates_witness :
    let t0 : Template :=
      ⟨"t1", "b1", some "c1", "Gym", 30, "expense", "weekly", some 4, true,
        ⟨2024, 1, 1⟩⟩
    let today : Date := ⟨2024, 11, 22⟩
    (∀ e, e ∈ datesToCreate t0 today ↔
      (e.year = today.year ∧ e.month = today.month ∧ 1 ≤ e.day ∧ e.day ≤ today.day ∧
        weekday today.year today.month e.day = pyOr t0.day 0)) ∧
    (datesToCreate t0 today).Sorted (fun a b => a.day < b.day) :=
  weekly_due_dates _ _ rfl

/-- C7: Yearly anchor-by-creation-month rule: with frequency = yearly the
due-date set is the singleton on day min(template.day or 1, last day of the
month) when the creation month of the template equals the current month and
that target day is at most today's day-of-month, and empty otherwise. -/
theorem yearly_due_dates (rec : Template) (today : Date)
    (hf : rec.frequency = "yearly") :
    ∀ e, e ∈ datesToCreate rec today ↔
      (e = ⟨today.year, today.month,
            min (pyOr rec.day 1) (daysInMonth today.year today.month)⟩ ∧
        rec.created_at.month = today.month ∧
        min (pyOr rec.day 1) (daysInMonth today.year today.month) ≤ today.day) := by
  intro e
  simp only [datesToCreate, hf]
  by_cases hm : rec.created_at.month = today.month
  · by_cases hd : min (pyOr rec.day 1) (daysInMonth today.year today.month) ≤ today.day <;>
      simp [hm, hd]
  · simp [hm]

/-- C7 witness: a yearly template created in March is due in March (on its
clamped day) and in no other month; here evaluated in March with target day
15 at most today's day. -/
theorem yearly_due_dates_witness :
    let t0 : Template :=
      ⟨"t1", "b1", some "c1", "Insurance", 300, "expense", "yearly", some 15, true,
        ⟨2023, 3, 10⟩⟩
    let today : Date := ⟨2024, 3, 20⟩
    ∀ e, e ∈ datesToCreate t0 today ↔
      (e = ⟨today.year, today.month,
            min (pyOr t0.day 1) (daysInMonth today.year today.month)⟩ ∧
        t0.created_at.month = today.month ∧
        min (pyOr t0.day 1) (daysInMonth today.year today.month) ≤ today.day) :=
  yearly_due_dates _ _ rfl

theorem mem_insertDesc (w v : Version) (l : List Version) :
    w ∈ insertDesc v l ↔ w = v ∨ w ∈ l := by
  induction l with
  | nil => simp [insertDesc]
  | cons x xs ih =>
    simp only [insertDesc]
    by_cases h : x.effective_from.key ≤ v.effective_from.key
    · rw [if_pos h]
      simp only [List.mem_cons]
    · rw [if_neg h]
      simp only [List.mem_cons, ih]
      tauto

theorem mem_sortByFromDesc (w : Version) (l : List Version) :
    w ∈ sortByFromDesc l ↔ w ∈ l := by
  induction l with
  | nil => simp [sortByFromDesc]
  | cons x xs ih => simp [sortByFromDesc, mem_insertDesc, ih]

/-- C8: Cancel guard: delete_recurring_version answers NotFoundError when no
version has the given id, InvalidStateError when the version is past or
current (effective_from at most today), and otherwise deletes exactly the
rows with that id, after which no version of that id appears in the version
history of any template; both error outcomes carry no state change. -/
theorem cancel_guard (s : Store) (vid : String) (today : Date) :
    (s.versions.find? (fun v => v.id == vid) = none →
      delete_recurring_version s vid today = Except.error Err.notFound) ∧
    (∀ v, s.versions.find? (fun w => w.id == vid) = some v →
      (v.effective_from.key ≤ today.key →
        delete_recurring_version s vid today = Except.error Err.invalidState) ∧
      (today.key < v.effective_from.key →
        delete_recurring_version s vid today =
          Except.ok { s with versions := s.versions.filter (fun w => !(w.id == vid)) } ∧
        ∀ rid, ∀ w ∈ get_recurring_versions
            { s with versions := s.versions.filter (fun w => !(w.id == vid)) } rid,
          w.id ≠ vid)) := by
  constructor
  · intro h
    unfold delete_recurring_version
    rw [h]
  · intro v hv
    constructor
    · intro hle
      unfold delete_recurring_version
      rw [hv]
      simp [hle]
    · intro hlt
      have hnle : ¬ v.effective_from.key ≤ today.key := by omega
      constructor
      · unfold delete_recurring_version
        rw [hv]
        simp [hnle]
      · intro rid w hw
        have hw2 : w ∈ (s.versions.filter (fun u => !(u.id == vid))).filter
            (fun u => u.recurring_transaction_id == rid) := by
          simpa [get_recurring_versions, mem_sortByFromDesc] using hw
        have hw4 : w ∈ s.versions.filter (fun u => !(u.id == vid)) :=
          List.mem_of_mem_filter hw2
        have hw5 : w ∈ s.versions ∧ (!(w.id == vid)) = true := List.mem_filter.mp hw4
        simpa using hw5.2

/-- C8 witness: on a store holding one past version "vp" and one future
version "vf" (today 2025-06-15), cancelling an unknown id answers
NotFoundError, cancelling "vp" answers InvalidStateError, and cancelling
"vf" deletes exactly that row. -/
theorem cancel_guard_witness :
    let vp : Version :=
      ⟨"vp", "t1", "A", 1, some "c", "monthly", some 1, ⟨2024, 1, 1⟩, none,
        ⟨2024, 1, 1⟩, none⟩
    let vf : Version :=
      ⟨"vf", "t1", "B", 2, some "c", "monthly", some 1, ⟨2030, 1, 1⟩, none,
        ⟨2024, 1, 1⟩, none⟩
    let s : Store := ⟨[], [vp, vf], []⟩
    let today : Date := ⟨2025, 6, 15⟩
    delete_recurring_version s "nope" today = Except.error Err.notFound ∧
    delete_recurring_version s "vp" today = Except.error Err.invalidState ∧
    delete_recurring_version s "vf" today =
      Except.ok { s with versions := s.versions.filter (fun w => !(w.id == "vf")) } :=
  ⟨(cancel_guard _ "nope" _).1 (by decide),
    ((cancel_guard _ "vp" _).2
      ⟨"vp", "t1", "A", 1, some "c", "monthly", some 1, ⟨2024, 1, 1⟩, none,
        ⟨2024, 1, 1⟩, none⟩ (by decide)).1 (by decide),
    (((cancel_guard _ "vf" _).2
      ⟨"vf", "t1", "B", 2, some "c", "monthly", some 1, ⟨2030, 1, 1⟩, none,
        ⟨2024, 1, 1⟩, none⟩ (by decide)).2 (by decide)).1⟩

/-- C9: a template produced by create_recurring_transaction is created with
active = 1, has no pending version (its fresh uuid is referenced by no
version row), and is selected by the active-template scan of the
materialization engine for its budget. -/
theorem create_template_active (s : Store) (b : String) (p : CreatePayload)
    (rid : String) (now : Date) (today : Date)
    (hfresh : ∀ v ∈ s.versions, v.recurring_transaction_id ≠ rid) :
    (create_recurring_transaction s b p rid now).2.active = true ∧
    fetch_pending (create_recurring_transaction s b p rid now).1.versions rid today
      = none ∧
    (create_recurring_transaction s b p rid now).2 ∈
      (create_recurring_transaction s b p rid now).1.templates.filter
        (fun t => t.budget_id == b && t.active) := by
  refine ⟨rfl, ?_, ?_⟩
  · have hnil : (create_recurring_transaction s b p rid now).1.versions.filter
        (pendingFilter rid today) = [] := by
      rw [List.filter_eq_nil_iff]
      intro v hv
      have hne := hfresh v hv
      simp only [pendingFilter, Bool.and_eq_true, beq_iff_eq]
      tauto
    rw [fetch_pending, hnil]
    rfl
  · simp [create_recurring_transaction, List.mem_filter]

/-- C9 witness: creating a monthly template in a store that already holds an
unrelated version row yields an active template with no pending version,
picked up by the engine scan of its budget. -/
theorem create_template_active_witness :
    let v0 : Version :=
      ⟨"v0", "other", "A", 1, some "c", "monthly", some 1, ⟨2024, 1, 1⟩, none,
        ⟨2024, 1, 1⟩, none⟩
    let s : Store := ⟨[], [v0], []⟩
    let p : CreatePayload := ⟨some "c1", "Rent", 1000, "expense", some 1, "monthly"⟩
    (create_recurring_transaction s "b1" p "t9" ⟨2025, 6, 1⟩).2.active = true ∧
    fetch_pending (create_recurring_transaction s "b1" p "t9" ⟨2025, 6, 1⟩).1.versions
      "t9" ⟨2025, 6, 1⟩ = none ∧
    (create_recurring_transaction s "b1" p "t9" ⟨2025, 6, 1⟩).2 ∈
      (create_recurring_transaction s "b1" p "t9" ⟨2025, 6, 1⟩).1.templates.filter
        (fun t => t.budget_id == "b1" && t.active) :=
  create_template_active _ "b1" _ "t9" _ _ (by decide)

/-- C10: deleting a recurring template never answers NotFoundError: the
DELETE runs with no existence check and always succeeds, and when no
template carries the given id the store is left unchanged. -/
theorem delete_template_total (s : Store) (rid : String) :
    (∃ s2, delete_recurring_transaction s rid = Except.ok s2) ∧
    ((∀ t ∈ s.templates, t.id ≠ rid) →
      delete_recurring_transaction s rid = Except.ok s) := by
  refine ⟨⟨_, rfl⟩, ?_⟩
  intro h
  have hself : s.templates.filter (fun t => !(t.id == rid)) = s.templates := by
    rw [List.filter_eq_self]
    intro t ht
    simpa using h t ht
  rw [delete_recurring_transaction, hself]

/-- C10 witness: deleting an id matching no template succeeds and leaves the
one-template store unchanged. -/
theorem delete_template_total_witness :
    let t1 : Template :=
      ⟨"t1", "b1", some "c1", "Rent", 1000, "expense", "monthly", some 1, true,
        ⟨2024, 1, 1⟩⟩
    let s : Store := ⟨[t1], [], []⟩
    (∃ s2, delete_recurring_transaction s "zz" = Except.ok s2) ∧
    delete_recurring_transaction s "zz" = Except.ok s :=
  ⟨(delete_template_total _ "zz").1, (delete_template_total _ "zz").2 (by decide)⟩

theorem pickEarliest_append_last (l : List Version) (v : Version)
    (h : ∀ w ∈ l, v.effective_from.key < w.effective_from.key) :
    pickEarliest (l ++ [v]) = some v := by
  induction l with
  | nil => rfl
  | cons x xs ih =>
    simp only [List.cons_append, pickEarliest, List.append_eq]
    rw [ih (fun w hw => h w (List.mem_cons_of_mem _ hw))]
    dsimp only
    rw [if_pos (h x (List.mem_cons_self _ _))]

theorem update_future_eq (s : Store) (rid : String) (p : UpdatePayload)
    (today : Date) (vid : String) (row : Template)
    (hrow : s.templates.find? (fun t => t.id == rid) = some row)
    (hnle : ¬ (p.effective_date.getD today).key ≤ today.key) :
    update_recurring_transaction s rid p today vid =
      Except.ok ({ s with versions := s.versions ++ [mergedVersion p row rid vid today] },
        fetch_pending (s.versions ++ [mergedVersion p row rid vid today]) rid today) := by
  unfold update_recurring_transaction
  rw [hrow]
  dsimp only
  rw [if_neg hnle]
  rfl

/-- C4: Future scheduling is non-mutating on the canonical template: with an
effective date strictly after today, update_recurring_transaction leaves
every template row and every existing version row unchanged and appends
exactly one version carrying effective_from = effective_date,
effective_until = null, the merged field values and the reason; and when no
other open future version is dated on or before that date, the
pending-version lookup returns the new version.  (With another open future
version sharing the exact date the SQL ordering leaves the choice
unspecified, so that case is excluded.) -/
theorem future_scheduling (s : Store) (rid : String) (p : UpdatePayload)
    (today : Date) (vid : String) (row : Template) (e : Date)
    (hrow : s.templates.find? (fun t => t.id == rid) = some row)
    (heff : p.effective_date = some e)
    (hfut : today.key < e.key) :
    ∃ s2 pend,
      update_recurring_transaction s rid p today vid = Except.ok (s2, pend) ∧
      s2.templates = s.templates ∧
      s2.transactions = s.transactions ∧
      ∃ newV : Version,
        s2.versions = s.versions ++ [newV] ∧
        newV.id = vid ∧ newV.recurring_transaction_id = rid ∧
        newV.effective_from = e ∧ newV.effective_until = none ∧
        newV.title = p.title.getD row.title ∧
        newV.amount = p.amount.getD row.amount ∧
        newV.category_id = p.category_id.or row.category_id ∧
        newV.frequency = p.frequency.getD row.frequency ∧
        newV.day = p.day.or row.day ∧
        newV.change_reason = p.change_reason ∧
        ((∀ v ∈ s.versions, v.recurring_transaction_id = rid →
            v.effective_until = none → today.key < v.effective_from.key →
            e.key < v.effective_from.key) →
          pend = some newV) := by
  have hnle : ¬ (p.effective_date.getD today).key ≤ today.key := by
    rw [heff]
    simpa using hfut
  refine ⟨_, _, update_future_eq s rid p today vid row hrow hnle, rfl, rfl, ?_⟩
  refine ⟨mergedVersion p row rid vid today, rfl, rfl, rfl, ?_, rfl, rfl, rfl,
    rfl, rfl, rfl, rfl, ?_⟩
  · rw [mergedVersion, heff]
    rfl
  · intro hother
    have hfrom : (mergedVersion p row rid vid today).effective_from = e := by
      rw [mergedVersion, heff]
      rfl
    unfold fetch_pending
    have hpf : pendingFilter rid today (mergedVersion p row rid vid today) = true := by
      simp only [pendingFilter, mergedVersion, Bool.and_eq_true, beq_self_eq_true,
        Option.isNone_none, decide_eq_true_eq, true_and, and_true]
      rw [heff]
      simpa using hfut
    have hsplit : (s.versions ++ [mergedVersion p row rid vid today]).filter
        (pendingFilter rid today) =
        s.versions.filter (pendingFilter rid today) ++
          [mergedVersion p row rid vid today] := by
      rw [List.filter_append]
      simp [hpf]
    rw [hsplit]
    apply pickEarliest_append_last
    intro w hw
    have hw1 : w ∈ s.versions := List.mem_of_mem_filter hw
    have hw2 : pendingFilter rid today w = true := List.of_mem_filter hw
    simp only [pendingFilter, Bool.and_eq_true, beq_iff_eq,
      Option.isNone_iff_eq_none, decide_eq_true_eq] at hw2
    have hlt := hother w hw1 hw2.1.1 hw2.2 hw2.1.2
    rw [hfrom]
    exact hlt

/-- C4 witness: scheduling amount 200 for 2030-01-01 on a template (today
2025-06-15) keeps the store frame and appends one open version at that date,
returned by the pending lookup. -/
theorem future_scheduling_witness :
    let t1 : Template :=
      ⟨"t1", "b1", some "c1", "Rent", 1000, "expense", "monthly", some 1, true,
        ⟨2024, 1, 1⟩⟩
    let s : Store := ⟨[t1], [], []⟩
    let p : UpdatePayload :=
      ⟨none, some 200, none, none, none, some ⟨2030, 1, 1⟩, some "raise"⟩
    let today : Date := ⟨2025, 6, 15⟩
    ∃ s2 pend,
      update_recurring_transaction s "t1" p today "v1" = Except.ok (s2, pend) ∧
      s2.templates = s.templates ∧
      s2.transactions = s.transactions ∧
      ∃ newV : Version,
        s2.versions = s.versions ++ [newV] ∧
        newV.id = "v1" ∧ newV.recurring_transaction_id = "t1" ∧
        newV.effective_from = ⟨2030, 1, 1⟩ ∧ newV.effective_until = none ∧
        newV.title = p.title.getD t1.title ∧
        newV.amount = p.amount.getD t1.amount ∧
        newV.category_id = p.category_id.or t1.category_id ∧
        newV.frequency = p.frequency.getD t1.frequency ∧
        newV.day = p.day.or t1.day ∧
        newV.change_reason = p.change_reason ∧
        ((∀ v ∈ s.versions, v.recurring_transaction_id = "t1" →
            v.effective_until = none →
            Date.key ⟨2025, 6, 15⟩ < v.effective_from.key →
            Date.key ⟨2030, 1, 1⟩ < v.effective_from.key) →
          pend = some newV) := by
  exact future_scheduling _ "t1" _ _ "v1"
    ⟨"t1", "b1", some "c1", "Rent", 1000, "expense", "monthly", some 1, true,
      ⟨2024, 1, 1⟩⟩ ⟨2030, 1, 1⟩ (by decide) rfl (by decide)

theorem update_now_eq (s : Store) (rid : String) (p : UpdatePayload)
    (today : Date) (vid : String) (row : Template)
    (hrow : s.templates.find? (fun t => t.id == rid) = some row)
    (hle : (p.effective_date.getD today).key ≤ today.key) :
    update_recurring_transaction s rid p today vid =
      Except.ok (immediateStore s rid p today vid row,
        fetch_pending (immediateStore s rid p today vid row).versions rid today) := by
  unfold update_recurring_transaction
  rw [hrow]
  dsimp only
  rw [if_pos hle]
  rfl

theorem filter_map_comm {α : Type} (l : List α) (f : α → α) (p : α → Bool)
    (h : ∀ v, p (f v) = p v) :
    (l.map f).filter p = (l.filter p).map f := by
  rw [List.filter_map]
  congr 1
  apply List.filter_congr
  intro v _
  exact h v

theorem closeFun_pres_rid (rid rid2 : String) (today : Date) (v : Version) :
    ((closeFun rid2 today v).recurring_transaction_id == rid)
      = (v.recurring_transaction_id == rid) := by
  unfold closeFun
  by_cases h : closePred rid2 today v
  · rw [if_pos h]
  · rw [if_neg h]

theorem find?_map_pres {α : Type} (l : List α) (f : α → α) (p : α → Bool)
    (h : ∀ v, p (f v) = p v) :
    (l.map f).find? p = (l.find? p).map f := by
  induction l with
  | nil => rfl
  | cons x xs ih =>
    by_cases hx : p x
    · rw [List.map_cons, List.find?_cons_of_pos _ (by rw [h]; exact hx),
        List.find?_cons_of_pos _ hx]
      rfl
    · rw [List.map_cons, List.find?_cons_of_neg _ (by rw [h]; simpa using hx),
        List.find?_cons_of_neg _ (by simpa using hx), ih]

theorem updFun_pres_id (rid rid2 : String) (p : UpdatePayload) (row t : Template) :
    ((updFun rid2 p row t).id == rid) = (t.id == rid) := by
  unfold updFun
  by_cases h : t.id == rid2
  · rw [if_pos h]
  · rw [if_neg h]

theorem applyUpdate_now (s : Store) (rid : String) (p : UpdatePayload)
    (today : Date) (vid : String) (row : Template)
    (hrow : s.templates.find? (fun t => t.id == rid) = some row)
    (hle : (p.effective_date.getD today).key ≤ today.key) :
    applyUpdate s rid p today vid = immediateStore s rid p today vid row := by
  unfold applyUpdate
  rw [update_now_eq s rid p today vid row hrow hle]

theorem versionsFor_immediate (s : Store) (rid : String) (p : UpdatePayload)
    (today : Date) (vid : String) (row : Template) :
    versionsFor (immediateStore s rid p today vid row) rid
      = (versionsFor s rid).map (closeFun rid today)
        ++ [mergedVersion p row rid vid today] := by
  unfold versionsFor immediateStore
  rw [List.filter_append, filter_map_comm _ _ _ (closeFun_pres_rid rid rid today)]
  congr 1
  simp [mergedVersion]

/-- C3 (amended): starting from a template with no version rows, after two
consecutive immediate submit_update calls — the first with any
effective_date at most today, the second with effective_date unspecified
(defaulting to today) — the template has exactly two versions, exactly one
of them open (effective_until = null), and the older version's
effective_until equals the newer version's effective_from, namely today. -/
theorem close_then_open_chaining (s : Store) (rid : String) (row : Template)
    (p1 p2 : UpdatePayload) (today e1 : Date) (vid1 vid2 : String)
    (hrow : s.templates.find? (fun t => t.id == rid) = some row)
    (hnov : versionsFor s rid = [])
    (heff1 : p1.effective_date = some e1) (he1 : e1.key ≤ today.key)
    (heff2 : p2.effective_date = none) :
    ∃ vOld vNew : Version,
      versionsFor (applyUpdate (applyUpdate s rid p1 today vid1) rid p2 today vid2) rid
        = [vOld, vNew] ∧
      vNew.effective_until = none ∧
      vNew.effective_from = today ∧
      vOld.effective_until = some vNew.effective_from ∧
      ((versionsFor (applyUpdate (applyUpdate s rid p1 today vid1) rid p2 today vid2)
          rid).filter (fun v => v.effective_until.isNone)).length = 1 := by
  have hle1 : (p1.effective_date.getD today).key ≤ today.key := by
    rw [heff1]
    exact he1
  have hle2 : (p2.effective_date.getD today).key ≤ today.key := by
    rw [heff2]
    exact Nat.le_refl _
  have h1 : applyUpdate s rid p1 today vid1 = immediateStore s rid p1 today vid1 row :=
    applyUpdate_now s rid p1 today vid1 row hrow hle1
  have hrow1 : (immediateStore s rid p1 today vid1 row).templates.find?
      (fun t => t.id == rid) = some (updFun rid p1 row row) := by
    show (s.templates.map (updFun rid p1 row)).find? (fun t => t.id == rid) = _
    rw [find?_map_pres _ _ _ (fun t => updFun_pres_id rid rid p1 row t), hrow]
    rfl
  have h2 : applyUpdate (applyUpdate s rid p1 today vid1) rid p2 today vid2
      = immediateStore (immediateStore s rid p1 today vid1 row) rid p2 today vid2
          (updFun rid p1 row row) := by
    rw [h1]
    exact applyUpdate_now _ rid p2 today vid2 _ hrow1 hle2
  have hv1 : versionsFor (immediateStore s rid p1 today vid1 row) rid
      = [mergedVersion p1 row rid vid1 today] := by
    rw [versionsFor_immediate, hnov]
    rfl
  have hclose : closeFun rid today (mergedVersion p1 row rid vid1 today)
      = { mergedVersion p1 row rid vid1 today with effective_until := some today } := by
    unfold closeFun
    rw [if_pos]
    unfold closePred mergedVersion
    simp only [Bool.and_eq_true, beq_self_eq_true, Option.isNone_none,
      decide_eq_true_eq, true_and]
    rw [heff1]
    exact he1
  have hv2 : versionsFor (applyUpdate (applyUpdate s rid p1 today vid1) rid p2
        today vid2) rid
      = [{ mergedVersion p1 row rid vid1 today with effective_until := some today },
          mergedVersion p2 (updFun rid p1 row row) rid vid2 today] := by
    rw [h2, versionsFor_immediate, hv1, List.map_cons, List.map_nil, hclose]
    rfl
  refine ⟨_, _, hv2, rfl, ?_, ?_, ?_⟩
  · show p2.effective_date.getD today = today
    rw [heff2]
    rfl
  · show some today = some ((mergedVersion p2 (updFun rid p1 row row) rid vid2
        today).effective_from)
    show some today = some (p2.effective_date.getD today)
    rw [heff2]
    rfl
  · rw [hv2]
    rfl

/-- C3 counterexample: the claim as stated fails for a second call with a
past effective_date.  Two immediate updates on a fresh template (today
2025-06-15), the second with effective_date 2025-06-10: the closed version
carries effective_until = 2025-06-15 (today) while the newer version has
effective_from = 2025-06-10, so the chaining equality does not hold. -/
theorem close_then_open_chaining_cex :
    let t1 : Template :=
      ⟨"t1", "b1", some "c1", "Rent", 1000, "expense", "monthly", some 1, true,
        ⟨2024, 1, 1⟩⟩
    let s : Store := ⟨[t1], [], []⟩
    let today : Date := ⟨2025, 6, 15⟩
    let p1 : UpdatePayload := ⟨none, some 110, none, none, none, some ⟨2025, 6, 15⟩, none⟩
    let p2 : UpdatePayload := ⟨none, some 120, none, none, none, some ⟨2025, 6, 10⟩, none⟩
    let st := applyUpdate (applyUpdate s "t1" p1 today "v1") "t1" p2 today "v2"
    (versionsFor st "t1").map (fun v => (v.effective_from, v.effective_until))
      = [(⟨2025, 6, 15⟩, some ⟨2025, 6, 15⟩), (⟨2025, 6, 10⟩, none)] ∧
    (⟨2025, 6, 15⟩ : Date) ≠ ⟨2025, 6, 10⟩ := by
  exact ⟨by decide, by decide⟩

/-- C3 witness: on a fresh template (today 2025-06-15), an immediate update
effective 2025-06-01 followed by an update with effective_date unspecified
yields one closed and one open version chained at today. -/
theorem close_then_open_chaining_witness :
    let t1 : Template :=
      ⟨"t1", "b1", some "c1", "Rent", 1000, "expense", "monthly", some 1, true,
        ⟨2024, 1, 1⟩⟩
    let s : Store := ⟨[t1], [], []⟩
    let today : Date := ⟨2025, 6, 15⟩
    let p1 : UpdatePayload := ⟨none, some 110, none, none, none, some ⟨2025, 6, 1⟩, none⟩
    let p2 : UpdatePayload := ⟨some "Rent v2", none, none, none, none, none, some "bump"⟩
    ∃ vOld vNew : Version,
      versionsFor (applyUpdate (applyUpdate s "t1" p1 today "v1") "t1" p2 today "v2")
          "t1" = [vOld, vNew] ∧
      vNew.effective_until = none ∧
      vNew.effective_from = today ∧
      vOld.effective_until = some vNew.effective_from ∧
      ((versionsFor (applyUpdate (applyUpdate s "t1" p1 today "v1") "t1" p2 today "v2")
          "t1").filter (fun v => v.effective_until.isNone)).length = 1 := by
  exact close_then_open_chaining _ "t1"
    ⟨"t1", "b1", some "c1", "Rent", 1000, "expense", "monthly", some 1, true,
      ⟨2024, 1, 1⟩⟩ _ _ _ ⟨2025, 6, 1⟩ "v1" "v2" (by decide) (by decide) rfl
    (by decide) rfl

theorem length_filter_map_of_pres {α : Type} (l : List α) (f : α → α) (p : α → Bool)
    (h : ∀ v, p (f v) = p v) :
    ((l.map f).filter p).length = (l.filter p).length := by
  rw [filter_map_comm l f p h, List.length_map]

theorem filter_map_nil_of_false {α : Type} (l : List α) (f : α → α) (p : α → Bool)
    (h : ∀ v, p (f v) = false) :
    (l.map f).filter p = [] := by
  rw [List.filter_eq_nil_iff]
  intro a ha
  obtain ⟨v, _, rfl⟩ := List.mem_map.mp ha
  simp [h v]

theorem closePred_closeFun_self (rid : String) (today : Date) (v : Version) :
    closePred rid today (closeFun rid today v) = false := by
  unfold closeFun
  by_cases h : closePred rid today v
  · rw [if_pos h]
    unfold closePred
    simp
  · rw [if_neg h]
    exact Bool.of_not_eq_true h

theorem closePred_closeFun_other (rid rid2 : String) (today : Date) (v : Version)
    (hne : rid2 ≠ rid) :
    closePred rid today (closeFun rid2 today v) = closePred rid today v := by
  unfold closeFun
  by_cases h : closePred rid2 today v
  · rw [if_pos h]
    have hv2 : v.recurring_transaction_id = rid2 := by
      have := h
      unfold closePred at this
      simp only [Bool.and_eq_true, beq_iff_eq] at this
      exact this.1.1
    have hvne : v.recurring_transaction_id ≠ rid := by
      rw [hv2]
      exact hne
    have hb : (v.recurring_transaction_id == rid) = false := by
      simpa using hvne
    unfold closePred
    simp [hb]
  · rw [if_neg h]

theorem countOpenCurrent_applyOp_le (today : Date) (s : Store) (rid : String)
    (op : Op) :
    countOpenCurrent (applyOp today s op).versions rid today
      ≤ max 1 (countOpenCurrent s.versions rid today) := by
  cases op with
  | cancel vid =>
    show countOpenCurrent (applyCancel s vid today).versions rid today ≤ _
    unfold applyCancel
    cases hdel : delete_recurring_version s vid today with
    | error e => exact Nat.le_max_right _ _
    | ok s2 =>
      dsimp only
      unfold delete_recurring_version at hdel
      cases hfind : s.versions.find? (fun v => v.id == vid) with
      | none =>
        rw [hfind] at hdel
        simp at hdel
      | some v =>
        rw [hfind] at hdel
        dsimp only at hdel
        by_cases hle : v.effective_from.key ≤ today.key
        · rw [if_pos hle] at hdel
          simp at hdel
        · rw [if_neg hle] at hdel
          injection hdel with h2
          subst h2
          have hsub : countOpenCurrent
              (s.versions.filter (fun w => !(w.id == vid))) rid today
              ≤ countOpenCurrent s.versions rid today := by
            unfold countOpenCurrent
            exact List.Sublist.length_le
              (List.Sublist.filter _ (List.filter_sublist _))
          exact hsub.trans (Nat.le_max_right _ _)
  | submit rid2 p vid =>
    show countOpenCurrent (applyUpdate s rid2 p today vid).versions rid today ≤ _
    unfold applyUpdate
    cases hfind : s.templates.find? (fun t => t.id == rid2) with
    | none =>
      rw [update_recurring_transaction, hfind]
      exact Nat.le_max_right _ _
    | some row =>
      by_cases hle : (p.effective_date.getD today).key ≤ today.key
      · rw [update_now_eq s rid2 p today vid row hfind hle]
        show countOpenCurrent (immediateStore s rid2 p today vid row).versions rid today ≤ _
        unfold countOpenCurrent immediateStore
        simp only [List.filter_append, List.length_append]
        by_cases hrr : rid2 = rid
        · subst hrr
          rw [filter_map_nil_of_false _ _ _ (closePred_closeFun_self rid2 today)]
          have hm : (List.filter (closePred rid2 today)
              [mergedVersion p row rid2 vid today]).length ≤ 1 :=
            List.Sublist.length_le (List.filter_sublist _)
          simpa using hm.trans (Nat.le_max_left _ _)
        · have heq := length_filter_map_of_pres s.versions (closeFun rid2 today)
            (closePred rid today)
            (fun v => closePred_closeFun_other rid rid2 today v hrr)
          rw [heq]
          have hm : List.filter (closePred rid today)
              [mergedVersion p row rid2 vid today] = [] := by
            rw [List.filter_eq_nil_iff]
            intro a ha
            simp only [List.mem_singleton] at ha
            subst ha
            unfold closePred mergedVersion
            simp only [Bool.and_eq_true, beq_iff_eq]
            intro hc
            exact hrr hc.1.1
          rw [hm]
          simp [Nat.le_max_right]
      · rw [update_future_eq s rid2 p today vid row hfind hle]
        show countOpenCurrent (s.versions ++ [mergedVersion p row rid2 vid today])
          rid today ≤ _
        unfold countOpenCurrent
        simp only [List.filter_append, List.length_append]
        have hm : List.filter (closePred rid today)
            [mergedVersion p row rid2 vid today] = [] := by
          rw [List.filter_eq_nil_iff]
          intro a ha
          simp only [List.mem_singleton] at ha
          subst ha
          unfold closePred mergedVersion
          simp only [Bool.and_eq_true, decide_eq_true_eq]
          intro hc
          exact hle hc.2
        rw [hm]
        simp [Nat.le_max_right]

/-- C2 (amended): at a fixed day, any sequence of submit_update and
cancel_pending calls starting from a store in which a template has at most
one open current version (effective_until = null and effective_from at most
today) leaves it with at most one; the claim's original quantification over
the passage of time fails, because scheduled future versions are never
closed when their dates arrive. -/
theorem open_current_invariant (s : Store) (rid : String) (today : Date)
    (ops : List Op) (h : countOpenCurrent s.versions rid today ≤ 1) :
    countOpenCurrent (runOps today ops s).versions rid today ≤ 1 := by
  induction ops generalizing s with
  | nil => exact h
  | cons op ops ih =>
    show countOpenCurrent (runOps today ops (applyOp today s op)).versions rid today ≤ 1
    exact ih _ ((countOpenCurrent_applyOp_le today s rid op).trans
      (Nat.max_le.mpr ⟨Nat.le_refl 1, h⟩))

/-- C2 counterexample: scheduling two future versions (2025-07-01 and
2025-07-02) on 2025-06-15 and letting today advance to 2025-07-02 leaves the
template with two versions having effective_until = null and
effective_from at most today, violating the claimed invariant under the
passage of time. -/
theorem open_current_invariant_cex :
    let t1 : Template :=
      ⟨"t1", "b1", some "c1", "Rent", 1000, "expense", "monthly", some 1, true,
        ⟨2024, 1, 1⟩⟩
    let s0 : Store := ⟨[t1], [], []⟩
    let pa : UpdatePayload := ⟨none, some 110, none, none, none, some ⟨2025, 7, 1⟩, none⟩
    let pb : UpdatePayload := ⟨none, some 120, none, none, none, some ⟨2025, 7, 2⟩, none⟩
    countOpenCurrent
      (runOps ⟨2025, 6, 15⟩ [Op.submit "t1" pa "v1", Op.submit "t1" pb "v2"] s0).versions
      "t1" ⟨2025, 7, 2⟩ = 2 := by
  decide

/-- C2 witness: two immediate updates and a cancel of an unknown id at the
fixed day 2025-06-15, starting with no versions, leave at most one open
current version. -/
theorem open_current_invariant_witness :
    let t1 : Template :=
      ⟨"t1", "b1", some "c1", "Rent", 1000, "expense", "monthly", some 1, true,
        ⟨2024, 1, 1⟩⟩
    let s0 : Store := ⟨[t1], [], []⟩
    let pa : UpdatePayload := ⟨none, some 110, none, none, none, none, none⟩
    let pb : UpdatePayload := ⟨some "Rent2", none, none, none, none, none, none⟩
    countOpenCurrent
      (runOps ⟨2025, 6, 15⟩
        [Op.submit "t1" pa "v1", Op.cancel "zz", Op.submit "t1" pb "v2"] s0).versions
      "t1" ⟨2025, 6, 15⟩ ≤ 1 :=
  open_current_invariant _ "t1" _ _ (by decide)

theorem processDates_grow (b : String) (rec : Template) (today : Date)
    (ds : List Date) :
    ∀ txns created k, ∃ dl,
      (processDates b rec today ds (txns, created, k)).1 = txns ++ dl := by
  induction ds with
  | nil =>
    intro txns created k
    exact ⟨[], by simp [processDates]⟩
  | cons d ds ih =>
    intro txns created k
    by_cases h : txns.any (tupleMatches b rec.category_id rec.title rec.amount d)
    · obtain ⟨dl, hdl⟩ := ih txns created k
      refine ⟨dl, ?_⟩
      simp only [processDates]
      rw [if_pos h]
      exact hdl
    · obtain ⟨dl, hdl⟩ := ih (txns ++ [mkTxn k b rec d today])
        (created ++ [mkTxn k b rec d today]) (k + 1)
      refine ⟨[mkTxn k b rec d today] ++ dl, ?_⟩
      simp only [processDates]
      rw [if_neg h]
      rw [hdl, List.append_assoc]

theorem any_grow (txns dl : List Txn) (f : Txn → Bool) (h : txns.any f = true) :
    (txns ++ dl).any f = true := by
  rw [List.any_append, h, Bool.true_or]

theorem tupleMatches_mkTxn (k : Nat) (b : String) (rec : Template) (d today : Date)
    (hc : rec.category_id.isSome = true) :
    tupleMatches b rec.category_id rec.title rec.amount d (mkTxn k b rec d today)
      = true := by
  obtain ⟨c, hceq⟩ := Option.isSome_iff_exists.mp hc
  unfold tupleMatches mkTxn
  simp [hceq, sqlEqOpt]

theorem processDates_guarantee (b : String) (rec : Template) (today : Date)
    (hc : rec.category_id.isSome = true) (ds : List Date) :
    ∀ txns created k, ∀ d ∈ ds,
      ((processDates b rec today ds (txns, created, k)).1).any
        (tupleMatches b rec.category_id rec.title rec.amount d) = true := by
  induction ds with
  | nil =>
    intro txns created k d hd
    exact absurd hd (List.not_mem_nil d)
  | cons d0 ds ih =>
    intro txns created k d hd
    by_cases h : txns.any (tupleMatches b rec.category_id rec.title rec.amount d0)
    · simp only [processDates]
      rw [if_pos h]
      rcases List.mem_cons.mp hd with rfl | hmem
      · obtain ⟨dl, hdl⟩ := processDates_grow b rec today ds txns created k
        rw [hdl]
        exact any_grow _ _ _ h
      · exact ih txns created k d hmem
    · simp only [processDates]
      rw [if_neg h]
      rcases List.mem_cons.mp hd with rfl | hmem
      · obtain ⟨dl, hdl⟩ := processDates_grow b rec today ds
          (txns ++ [mkTxn k b rec d today]) (created ++ [mkTxn k b rec d today])
          (k + 1)
        rw [hdl]
        rw [List.any_eq_true]
        exact ⟨mkTxn k b rec d today, by simp [List.mem_append],
          tupleMatches_mkTxn k b rec d today hc⟩
      · exact ih _ _ _ d hmem

theorem processDates_noop (b : String) (rec : Template) (today : Date)
    (ds : List Date) :
    ∀ txns created k,
      (∀ d ∈ ds, txns.any (tupleMatches b rec.category_id rec.title rec.amount d)
        = true) →
      processDates b rec today ds (txns, created, k) = (txns, created, k) := by
  induction ds with
  | nil =>
    intro txns created k _
    rfl
  | cons d0 ds ih =>
    intro txns created k h
    simp only [processDates]
    rw [if_pos (h d0 (List.mem_cons_self _ _))]
    exact ih txns created k (fun d hd => h d (List.mem_cons_of_mem _ hd))

theorem processRecs_grow (b : String) (today : Date) (rs : List Template) :
    ∀ txns created k, ∃ dl,
      (processRecs b today rs (txns, created, k)).1 = txns ++ dl := by
  induction rs with
  | nil =>
    intro txns created k
    exact ⟨[], by simp [processRecs]⟩
  | cons r rs ih =>
    intro txns created k
    obtain ⟨dl1, hdl1⟩ := processDates_grow b r today (datesToCreate r today)
      txns created k
    rcases hmid : processDates b r today (datesToCreate r today) (txns, created, k)
      with ⟨txns1, created1, k1⟩
    rw [hmid] at hdl1
    dsimp only at hdl1
    obtain ⟨dl2, hdl2⟩ := ih txns1 created1 k1
    refine ⟨dl1 ++ dl2, ?_⟩
    show (processRecs b today rs
      (processDates b r today (datesToCreate r today) (txns, created, k))).1
        = txns ++ (dl1 ++ dl2)
    rw [hmid, hdl2, hdl1, List.append_assoc]

theorem processRecs_guarantee (b : String) (today : Date) (rs : List Template) :
    ∀ txns created k, ∀ r ∈ rs, r.category_id.isSome = true →
      ∀ d ∈ datesToCreate r today,
        ((processRecs b today rs (txns, created, k)).1).any
          (tupleMatches b r.category_id r.title r.amount d) = true := by
  induction rs with
  | nil =>
    intro txns created k r hr
    exact absurd hr (List.not_mem_nil r)
  | cons r0 rs ih =>
    intro txns created k r hr hc d hd
    show ((processRecs b today rs
      (processDates b r0 today (datesToCreate r0 today) (txns, created, k))).1).any
        (tupleMatches b r.category_id r.title r.amount d) = true
    rcases hmid : processDates b r0 today (datesToCreate r0 today) (txns, created, k)
      with ⟨txns1, created1, k1⟩
    rcases List.mem_cons.mp hr with rfl | hmem
    · have hg := processDates_guarantee b r today hc (datesToCreate r today)
        txns created k d hd
      rw [hmid] at hg
      dsimp only at hg
      obtain ⟨dl, hdl⟩ := processRecs_grow b today rs txns1 created1 k1
      rw [hdl]
      exact any_grow _ _ _ hg
    · exact ih txns1 created1 k1 r hmem hc d hd

theorem processRecs_noop (b : String) (today : Date) (rs : List Template) :
    ∀ txns created k,
      (∀ r ∈ rs, ∀ d ∈ datesToCreate r today,
        txns.any (tupleMatches b r.category_id r.title r.amount d) = true) →
      processRecs b today rs (txns, created, k) = (txns, created, k) := by
  induction rs with
  | nil =>
    intro txns created k _
    rfl
  | cons r0 rs ih =>
    intro txns created k h
    show processRecs b today rs
      (processDates b r0 today (datesToCreate r0 today) (txns, created, k)) = _
    rw [processDates_noop b r0 today _ txns created k
      (fun d hd => h r0 (List.mem_cons_self _ _) d hd)]
    exact ih txns created k (fun r hr d hd => h r (List.mem_cons_of_mem _ hr) d hd)

/-- C1 (amended): materialization is idempotent for a budget whose active
templates all carry a non-null category: a second
process_recurring_transactions call on the same day inserts nothing and
returns the empty list, leaving the store unchanged.  For a template with a
NULL category the SQL dedup tuple check (category_id = NULL) never matches,
so the restriction is necessary. -/
theorem materialize_idempotent (s : Store) (b : String) (today : Date) (k k2 : Nat)
    (hcat : ∀ t ∈ s.templates, t.budget_id = b → t.active = true →
      t.category_id.isSome = true) :
    (process_recurring_transactions
      (process_recurring_transactions s b today k).1 b today k2).2 = [] ∧
    (process_recurring_transactions
      (process_recurring_transactions s b today k).1 b today k2).1
      = (process_recurring_transactions s b today k).1 := by
  have hguar : ∀ r ∈ s.templates.filter (fun t => t.budget_id == b && t.active),
      r.category_id.isSome = true := by
    intro r hr
    have hm := List.mem_filter.mp hr
    have hb := hm.2
    simp only [Bool.and_eq_true, beq_iff_eq] at hb
    exact hcat r hm.1 hb.1 hb.2
  rcases hout1 : processRecs b today
      (s.templates.filter (fun t => t.budget_id == b && t.active))
      (s.transactions, [], k) with ⟨txns1, created1, kk1⟩
  have hfirst : process_recurring_transactions s b today k
      = ({ s with transactions := txns1 }, created1) := by
    unfold process_recurring_transactions
    dsimp only
    rw [hout1]
  have h1 : ∀ r ∈ s.templates.filter (fun t => t.budget_id == b && t.active),
      ∀ d ∈ datesToCreate r today,
      txns1.any (tupleMatches b r.category_id r.title r.amount d) = true := by
    intro r hr d hd
    have hg := processRecs_guarantee b today _ s.transactions [] k r hr
      (hguar r hr) d hd
    rw [hout1] at hg
    exact hg
  have hsecond : process_recurring_transactions { s with transactions := txns1 }
      b today k2 = ({ s with transactions := txns1 }, []) := by
    unfold process_recurring_transactions
    show ({ s with transactions :=
      (processRecs b today
        (s.templates.filter (fun t => t.budget_id == b && t.active))
        (txns1, [], k2)).1 },
      (processRecs b today
        (s.templates.filter (fun t => t.budget_id == b && t.active))
        (txns1, [], k2)).2.1) = _
    rw [processRecs_noop b today _ txns1 [] k2 h1]
  rw [hfirst]
  dsimp only
  rw [hsecond]
  exact ⟨rfl, rfl⟩

/-- C1 witness: one active monthly template (day 1, category "c1") on
2025-06-05: the second materialization call creates nothing and leaves the
store as after the first. -/
theorem materialize_idempotent_witness :
    let t1 : Template :=
      ⟨"t1", "b1", some "c1", "Rent", 1000, "expense", "monthly", some 1, true,
        ⟨2025, 1, 1⟩⟩
    let s : Store := ⟨[t1], [], []⟩
    let today : Date := ⟨2025, 6, 5⟩
    (process_recurring_transactions
      (process_recurring_transactions s "b1" today 0).1 "b1" today 100).2 = [] ∧
    (process_recurring_transactions
      (process_recurring_transactions s "b1" today 0).1 "b1" today 100).1
      = (process_recurring_transactions s "b1" today 0).1 :=
  materialize_idempotent _ "b1" _ 0 100 (by decide)

/-- C1 counterexample: the claim as stated fails for a template with a NULL
category, because the dedup query compares category_id with SQL NULL and
never matches: on 2025-06-05 a monthly day-1 template with no category is
materialized again by the second call (one new transaction, two rows in the
store), instead of the claimed empty second run. -/
theorem materialize_idempotent_cex :
    let t1 : Template :=
      ⟨"t1", "b1", none, "Rent", 1000, "expense", "monthly", some 1, true,
        ⟨2025, 1, 1⟩⟩
    let s : Store := ⟨[t1], [], []⟩
    let today : Date := ⟨2025, 6, 5⟩
    ((process_recurring_transactions
      (process_recurring_transactions s "b1" today 0).1 "b1" today 100).2).length = 1 ∧
    ((process_recurring_transactions
      (process_recurring_transactions s "b1" today 0).1 "b1" today
        100).1).transactions.length = 2 := by
  exact ⟨by decide, by decide⟩

end TempoBudget
